import Mathlib

/-!
Shallow embedding of the feed refresh and episode-reconciliation engine of
the ha-podcast custom component (custom_components/podcast_hub), covering:

* time_utils.py      : normalize_refresh_times, parse_refresh_times
* podcast_hub.py     : Episode, PodcastFeed, PodcastHub.fetch_feed and its
                       helpers (_entry_to_episode, _build_episodes,
                       _next_scheduled_time, _is_scheduled_refresh_due, ...)
* coordinator.py     : PodcastHubCoordinator._async_update_feed and
                       _fire_new_episode_events
* init_ui.py         : the reconciliation step of async_setup_entry
* init_common.py     : coerce_max_episodes

Datetimes are modelled as integer minutes on a UTC timeline; a local
datetime is a (day, minute-of-day) pair obtained by adding a fixed
timezone offset (dt_util.as_local for a fixed-offset zone).  Time-of-day
values are modelled at minute granularity, matching the HH:MM strings the
component stores.  Python falsy-string tests (`x or y`) are modelled by
comparison with the empty string, and Python exceptions raised by the
fetch/parse step are modelled by an `Except String` oracle argument whose
error carries `str(err)`.
-/

/-- Python truthiness fallback on strings: `a or b`. -/
def pyOr (a b : String) : String :=
  if a = "" then b else a

/-- Local datetime: a calendar day index and a minute-of-day. -/
structure LocalDT where
  day : Int
  tod : Nat
  deriving Repr, DecidableEq

/-- Total minutes of a local datetime, used for datetime comparison. -/
def LocalDT.toMin (d : LocalDT) : Int :=
  d.day * 1440 + d.tod

/-- Conversion of a UTC instant (minutes) to a local datetime at a fixed
timezone offset (dt_util.as_local). -/
def localOf (off t : Int) : LocalDT :=
  ⟨(t + off).fdiv 1440, ((t + off).emod 1440).toNat⟩

/-- A Python datetime.time value (seconds granularity, as produced by the
host validator cv.time). -/
structure PyTime where
  hour : Nat
  minute : Nat
  second : Nat
  deriving Repr, DecidableEq

/-- Total seconds of a time value, the comparison key Python uses when
sorting datetime.time objects. -/
def PyTime.toSec (t : PyTime) : Nat :=
  t.hour * 3600 + t.minute * 60 + t.second

/-- Minute-of-day of a time value (HH:MM granularity used by the feed
scheduling model). -/
def PyTime.toMin (t : PyTime) : Nat :=
  t.hour * 60 + t.minute

/-- Splitting of a character list at every colon, the semantics of the
Python str.split call with a colon separator. -/
def splitColon : List Char → List Char → List (List Char)
  | [], cur => [cur.reverse]
  | c :: rest, cur =>
    if c = ':' then cur.reverse :: splitColon rest []
    else splitColon rest (c :: cur)

/-- Decimal value of a digit character, none for a non-digit. -/
def digitVal? (c : Char) : Option Nat :=
  if c.toNat < 48 ∨ 57 < c.toNat then none else some (c.toNat - 48)

/-- Accumulating decimal reading of a digit list. -/
def natOfDigitsAux : List Char → Nat → Option Nat
  | [], acc => some acc
  | c :: rest, acc =>
    match digitVal? c with
    | some d => natOfDigitsAux rest (10 * acc + d)
    | none => none

/-- Decimal reading of a non-empty all-digit character list, the behavior
of the Python int call on the number strings the validator sees. -/
def natOfDigits? : List Char → Option Nat
  | [] => none
  | cs => natOfDigitsAux cs 0

/-- Modelled from the spec: the host framework's time validator cv.time
(homeassistant.helpers.config_validation, not part of this repository).
It splits the string on colons, requires at least hour and minute parts,
parses them as integers (a third part is the seconds), and rejects values
outside the range of a valid time of day. -/
def parse_time (s : String) : Option PyTime :=
  match splitColon s.data [] with
  | p0 :: p1 :: rest =>
    match natOfDigits? p0, natOfDigits? p1,
        (match rest with | [] => some 0 | p2 :: _ => natOfDigits? p2) with
    | some h, some m, some sec =>
      if h < 24 ∧ m < 60 ∧ sec < 60 then some ⟨h, m, sec⟩ else none
    | _, _, _ => none
  | _ => none

/-- Zero-padding of a number below 100 to two digits. -/
def pad2 (n : Nat) : String :=
  if n < 10 then "0" ++ toString n else toString n

/-- Serialization of a time value with strftime format HH:MM. -/
def PyTime.strftimeHM (t : PyTime) : String :=
  pad2 t.hour ++ ":" ++ pad2 t.minute

/-- An input item of the time helpers: a time value or a raw string. -/
abbrev TimeLike := Sum PyTime String

/-- Embedding of time_utils.normalize_refresh_times: each item that is
already a time value is kept, each string is validated with cv.time
(an invalid one raises, modelled as none for the whole call), and each
parsed value is serialized to HH:MM in input order. -/
def normalize_refresh_times : List TimeLike → Option (List String)
  | [] => some []
  | item :: rest =>
    let parsed? := match item with
      | Sum.inl t => some t
      | Sum.inr s => parse_time s
    match parsed? with
    | none => none
    | some t =>
      match normalize_refresh_times rest with
      | none => none
      | some tail => some (t.strftimeHM :: tail)

/-- Stable insertion of a time value into an ascending list, with
elements comparing as Python datetime.time values do. -/
def insertTimeSorted (t : PyTime) : List PyTime → List PyTime
  | [] => [t]
  | x :: rest =>
    if t.toSec ≤ x.toSec then t :: x :: rest
    else x :: insertTimeSorted t rest

/-- Stable ascending sort of time values, the semantics of the Python
list.sort call on datetime.time objects. -/
def sortTimes : List PyTime → List PyTime
  | [] => []
  | x :: rest => insertTimeSorted x (sortTimes rest)

/-- Embedding of time_utils.parse_refresh_times: time values are kept,
strings failing cv.time are silently skipped, and the result is sorted
ascending. -/
def parse_refresh_times (value : List TimeLike) : List PyTime :=
  let collected := value.foldr
    (fun item acc =>
      match item with
      | Sum.inl t => t :: acc
      | Sum.inr s =>
        match parse_time s with
        | some t => t :: acc
        | none => acc)
    []
  sortTimes collected

/-- Normalized podcast episode (podcast_hub.Episode).  The published field
keeps the UTC timestamp in seconds as computed with calendar.timegm. -/
structure Episode where
  guid : String
  title : String
  published : Option Int
  url : String
  image_url : Option String
  summary : String
  deriving Repr, DecidableEq

/-- Entry-level or feed-level image dictionary with href and url keys;
a missing key is the empty string, a non-dict value is modelled as none
at the use site. -/
structure ImageDict where
  href : String
  url : String
  deriving Repr, DecidableEq

/-- Raw parsed feed entry as the normalizer reads it (feedparser entry).
Missing or falsy string attributes are the empty string; enclosures is
the list of enclosure href values in source order; published_parsed and
updated_parsed are the timegm seconds of the parsed time tuple, none when
absent or empty; itunes_image carries its href; media_thumbnail is the
list of its url values. -/
structure ParsedEntry where
  id : String
  guid : String
  link : String
  title : String
  summary : String
  description : String
  enclosures : List String
  published_parsed : Option Int
  updated_parsed : Option Int
  image : Option ImageDict
  itunes_image : Option String
  media_thumbnail : List String
  deriving Repr, DecidableEq

/-- Parsed feed document (feedparser result): document title, feed-level
image and itunes_image, and the entry list. -/
structure ParsedDoc where
  title : String
  image : Option ImageDict
  itunes_image : Option String
  entries : List ParsedEntry
  deriving Repr, DecidableEq

/-- Embedding of PodcastHub._entry_audio_url / the coordinator's copy:
first non-empty enclosure href in source order, none otherwise. -/
def entry_audio_url (e : ParsedEntry) : Option String :=
  e.enclosures.find? (fun h => h ≠ "")

/-- Embedding of PodcastHub._entry_published / the coordinator's copy:
published_parsed preferred over updated_parsed, none when both absent. -/
def entry_published (e : ParsedEntry) : Option Int :=
  match e.published_parsed with
  | some t => some t
  | none => e.updated_parsed

/-- First non-empty of href and url in an optional image dictionary. -/
def imageDictHref (img : Option ImageDict) : Option String :=
  match img with
  | some i => let h := pyOr i.href i.url; if h = "" then none else some h
  | none => none

/-- Embedding of PodcastHub._entry_image_url / the coordinator's copy:
image href/url, then itunes_image href, then the first media_thumbnail
url; first non-empty wins. -/
def entry_image_url (e : ParsedEntry) : Option String :=
  match imageDictHref e.image with
  | some h => some h
  | none =>
    match e.itunes_image with
    | some h => if h ≠ "" then some h else
        (match e.media_thumbnail with
         | u :: _ => if u ≠ "" then some u else none
         | [] => none)
    | none =>
      match e.media_thumbnail with
      | u :: _ => if u ≠ "" then some u else none
      | [] => none

/-- Embedding of PodcastHub._feed_image_url / the coordinator's copy:
document-level image href/url then itunes_image href. -/
def feed_image_url (d : ParsedDoc) : Option String :=
  match imageDictHref d.image with
  | some h => some h
  | none =>
    match d.itunes_image with
    | some h => if h ≠ "" then some h else none
    | none => none

/-- Embedding of PodcastHub._entry_to_episode / the coordinator's copy:
guid from id, guid, link (first non-empty, else drop); title defaulting
to Untitled; audio url from the enclosures with fallback to the link
(drop when still empty); published, image and summary as extracted by the
helpers. -/
def entry_to_episode (e : ParsedEntry) : Option Episode :=
  let guid := pyOr e.id (pyOr e.guid e.link)
  if guid = "" then none
  else
    let url := match entry_audio_url e with
      | some u => u
      | none => pyOr e.link ""
    if url = "" then none
    else
      some { guid := guid
             title := pyOr e.title "Untitled"
             published := entry_published e
             url := url
             image_url := entry_image_url e
             summary := pyOr e.summary e.description }

/-- Embedding of PodcastHub._build_episodes / the coordinator's copy:
entries converted in source order, non-None results appended, loop left
as soon as the accumulated list reaches max_episodes. -/
def build_episodes (entries : List ParsedEntry) (max_episodes : Nat) :
    List Episode :=
  go entries []
where
  go : List ParsedEntry → List Episode → List Episode
  | [], acc => acc.reverse
  | e :: rest, acc =>
    let acc1 := match entry_to_episode e with
      | some ep => ep :: acc
      | none => acc
    if max_episodes ≤ acc1.length then acc1.reverse else go rest acc1

/-- Feed configuration and state (podcast_hub.PodcastFeed).  refresh_times
holds minute-of-day values of the stored time objects; last_update is the
UTC instant (minutes) of the most recent fetch attempt. -/
structure PodcastFeed where
  feed_id : String
  name : String
  url : String
  max_episodes : Nat
  title : Option String := none
  image_url : Option String := none
  episodes : List Episode := []
  last_error : Option String := none
  update_interval : Option Nat := none
  refresh_times : List Nat := []
  last_update : Option Int := none
  deriving Repr, DecidableEq

/-- Embedding of PodcastHub._next_scheduled_time / the coordinator's copy:
first refresh time whose combination with the last update's date is
strictly after the last update, else the first refresh time on the next
day.  Callers only invoke it with a non-empty list (Python would raise an
IndexError on an empty one); headD stands for that indexing. -/
def nextScheduledTime (last : LocalDT) (times : List Nat) : LocalDT :=
  match times.find? (fun t => last.tod < t) with
  | some t => ⟨last.day, t⟩
  | none => ⟨last.day + 1, times.headD 0⟩

/-- Embedding of PodcastHub._is_scheduled_refresh_due / the coordinator's
copy: due when the feed was never updated, otherwise due when the local
now has reached the next scheduled time after the local last update. -/
def isScheduledRefreshDue (off : Int) (feed : PodcastFeed)
    (now_local : LocalDT) : Bool :=
  match feed.last_update with
  | none => true
  | some lu =>
    let last_local := localOf off lu
    let next := nextScheduledTime last_local feed.refresh_times
    next.toMin ≤ now_local.toMin

/-- Python truthiness fallback on an optional interval: the expression
feed.update_interval or default, where both None and 0 are falsy and
select the default. -/
def pyOrInterval (x : Option Nat) (d : Nat) : Nat :=
  match x with
  | some n => if n = 0 then d else n
  | none => d

/-- Due-ness decision of PodcastHub.fetch_feed: the if/elif chain over
force_refresh, a missing last_update, the scheduled-time check guarded by
a non-empty refresh_times, and the elapsed-interval check against
update_interval or the global default (a falsy update_interval, None or
0, selects the default). -/
def fetchFeedDue (defaultInterval : Nat) (off : Int) (feed : PodcastFeed)
    (now_utc : Int) (force : Bool) : Bool :=
  let now_local := localOf off now_utc
  let effective_interval := pyOrInterval feed.update_interval defaultInterval
  force ||
    feed.last_update.isNone ||
    (!feed.refresh_times.isEmpty && isScheduledRefreshDue off feed now_local) ||
    (match feed.last_update with
     | some lu => decide ((effective_interval : Int) < now_utc - lu)
     | none => true)

/-- Embedding of PodcastHub.fetch_feed: when due, the fetch-and-parse step
(modelled by the oracle) either yields a document, in which case title,
image_url and episodes are reassigned and last_error cleared, or raises
a TimeoutError, OSError or ValueError carrying str(err) into last_error;
either way last_update is set to now in the finally block.  When not due
the feed is returned unchanged. -/
def fetchFeed (defaultInterval : Nat) (off : Int)
    (oracle : Except String ParsedDoc) (feed : PodcastFeed)
    (now_utc : Int) (force : Bool) : PodcastFeed :=
  if fetchFeedDue defaultInterval off feed now_utc force then
    match oracle with
    | Except.ok parsed =>
      { feed with
        title := some (pyOr parsed.title feed.name)
        image_url := feed_image_url parsed
        episodes := build_episodes parsed.entries feed.max_episodes
        last_error := none
        last_update := some now_utc }
    | Except.error e =>
      { feed with last_error := some e, last_update := some now_utc }
  else feed

/-- Due-ness decision of PodcastHubCoordinator._async_update_feed: a feed
with refresh times is refreshed only per schedule; otherwise the per-feed
interval (when truthy, together with a set last_update) can skip the
refresh; in every other case the feed is fetched. -/
def coordinatorDue (off : Int) (feed : PodcastFeed) (now_utc : Int)
    (now_local : LocalDT) : Bool :=
  if !feed.refresh_times.isEmpty then
    isScheduledRefreshDue off feed now_local
  else
    match feed.update_interval, feed.last_update with
    | some ui, some lu =>
      if ui ≠ 0 then decide ((ui : Int) ≤ now_utc - lu) else true
    | _, _ => true

/-- Known-guid state of the coordinator: an association map from feed_id
to the set of guids last observed. -/
abbrev KnownMap := List (String × Finset String)

/-- Dictionary lookup in the known-guid map. -/
def lookupKnown : KnownMap → String → Option (Finset String)
  | [], _ => none
  | (k1, v1) :: rest, k => if k1 = k then some v1 else lookupKnown rest k

/-- Dictionary assignment in the known-guid map: replace the binding of
the key or append a new one. -/
def insertKnown : KnownMap → String → Finset String → KnownMap
  | [], k, v => [(k, v)]
  | (k1, v1) :: rest, k, v =>
    if k1 = k then (k, v) :: rest else (k1, v1) :: insertKnown rest k v

/-- Guid set of the episodes currently on a feed. -/
def currentGuids (feed : PodcastFeed) : Finset String :=
  (feed.episodes.map Episode.guid).toFinset

/-- Payload of one new-episode event fired on the host event bus. -/
structure NewEpisodeEvent where
  feed_id : String
  feed_title : String
  episode : Episode
  deriving Repr, DecidableEq

/-- Embedding of PodcastHubCoordinator._fire_new_episode_events: records
the current guid set under the feed id; on the first observation returns
without firing; otherwise fires one event per episode whose guid was not
previously known. -/
def fireNewEpisodeEvents (known : KnownMap) (feed : PodcastFeed) :
    KnownMap × List NewEpisodeEvent :=
  let current := currentGuids feed
  let previous := lookupKnown known feed.feed_id
  let known1 := insertKnown known feed.feed_id current
  match previous with
  | none => (known1, [])
  | some prev =>
    let newGuids := current \ prev
    if newGuids = ∅ then (known1, [])
    else
      let feed_title := pyOr (feed.title.getD "") feed.name
      (known1,
        (feed.episodes.filter (fun ep => ep.guid ∈ newGuids)).map
          (fun ep => ⟨feed.feed_id, feed_title, ep⟩))

/-- Embedding of PodcastHubCoordinator._async_update_feed: the coordinator
due-check, then the fetch-and-parse oracle; on success title, image_url
and episodes are reassigned, new-episode events fired and last_error
cleared; on TimeoutError, OSError or ValueError str(err) lands in
last_error and no event fires; last_update is set to now in the finally
block whenever the fetch was attempted. -/
def asyncUpdateFeed (off : Int) (oracle : Except String ParsedDoc)
    (known : KnownMap) (feed : PodcastFeed) (now_utc : Int) :
    PodcastFeed × KnownMap × List NewEpisodeEvent :=
  let now_local := localOf off now_utc
  if coordinatorDue off feed now_utc now_local then
    match oracle with
    | Except.ok parsed =>
      let feed1 :=
        { feed with
          title := some (pyOr parsed.title feed.name)
          image_url := feed_image_url parsed
          episodes := build_episodes parsed.entries feed.max_episodes }
      let fired := fireNewEpisodeEvents known feed1
      ({ feed1 with last_error := none, last_update := some now_utc },
        fired.1, fired.2)
    | Except.error e =>
      ({ feed with last_error := some e, last_update := some now_utc },
        known, [])
  else (feed, known, [])

/-- Hub feed mapping (PodcastHub.feeds): an association map from feed_id
to the feed record. -/
abbrev HubMap := List (String × PodcastFeed)

/-- Embedding of PodcastHub.get_feed. -/
def hubGetFeed : HubMap → String → Option PodcastFeed
  | [], _ => none
  | (k1, f1) :: rest, k => if k1 = k then some f1 else hubGetFeed rest k

/-- Embedding of PodcastHub.add_feed: inserts or replaces by feed_id. -/
def hubAddFeed : HubMap → PodcastFeed → HubMap
  | [], f => [(f.feed_id, f)]
  | (k1, f1) :: rest, f =>
    if k1 = f.feed_id then (f.feed_id, f) :: rest
    else (k1, f1) :: hubAddFeed rest f

/-- Embedding of PodcastHub.remove_feed: drops the binding, no-op when
the id is absent. -/
def hubRemoveFeed (m : HubMap) (k : String) : HubMap :=
  m.filter (fun p => p.1 ≠ k)

/-- Default for max_episodes (const.DEFAULT_MAX_EPISODES). -/
def DEFAULT_MAX_EPISODES : Nat := 50

/-- Modelled from the spec: const.MAX_MAX_EPISODES is referenced by
init_common.py but its definition is absent from the const.py under
src; the spec gives the sane maximum as 500. -/
def MAX_MAX_EPISODES : Nat := 500

/-- Embedding of init_common.coerce_max_episodes: a missing or
non-numeric value becomes the default, then the result is clamped into
the range from 1 to the maximum. -/
def coerce_max_episodes (value : Option Int) : Nat :=
  let coerced := value.getD (DEFAULT_MAX_EPISODES : Int)
  (max 1 (min coerced (MAX_MAX_EPISODES : Int))).toNat

/-- One subentry declaration of the interactive configuration source, as
read by init_ui.async_setup_entry; a missing field is the empty string
or none. -/
structure Subentry where
  id : String
  name : String
  url : String
  max_episodes : Option Int := none
  update_interval : Option Nat := none
  refresh_times : List TimeLike := []
  deriving Repr, DecidableEq

/-- Validity of a subentry declaration: id, name and url all truthy
(the loop skips the declaration otherwise). -/
def validSub (s : Subentry) : Bool :=
  s.id ≠ "" && s.name ≠ "" && s.url ≠ ""

/-- Feed record built from a valid subentry declaration by
init_ui.async_setup_entry. -/
def feedOfSub (s : Subentry) : PodcastFeed :=
  { feed_id := s.id
    name := s.name
    url := s.url
    max_episodes := coerce_max_episodes s.max_episodes
    update_interval := s.update_interval
    refresh_times := (parse_refresh_times s.refresh_times).map PyTime.toMin }

/-- Upsert loop of init_ui.async_setup_entry: every valid declaration is
added to the hub, invalid ones are skipped. -/
def applySubs : HubMap → List Subentry → HubMap
  | hub, [] => hub
  | hub, s :: rest =>
    if validSub s then applySubs (hubAddFeed hub (feedOfSub s)) rest
    else applySubs hub rest

/-- Desired-id set accumulated by the same loop: the ids of the valid
declarations. -/
def desiredIds : List Subentry → List String
  | [] => []
  | s :: rest =>
    if validSub s then s.id :: desiredIds rest else desiredIds rest

/-- Embedding of the reconciliation step of init_ui.async_setup_entry:
upsert all valid subentry declarations, then remove every feed whose id
is neither a desired id nor a YAML-declared id. -/
def reconcileSubentries (hub : HubMap) (yamlIds : List String)
    (subs : List Subentry) : HubMap :=
  let hub1 := applySubs hub subs
  let protectedIds := yamlIds ++ desiredIds subs
  hub1.filter (fun p => p.1 ∈ protectedIds)


/-- Concrete feed with both refresh_times (09:00) and a per-feed interval
of 60 minutes, last updated at minute 600 (10:00 local at offset 0). -/
def feedC1 : PodcastFeed :=
  { feed_id := "f", name := "n", url := "u", max_episodes := 10,
    update_interval := some 60, refresh_times := [540],
    last_update := some 600 }

/-- Concrete feed with no refresh_times, a per-feed interval of 60
minutes, and last update at minute 0. -/
def feedC4 : PodcastFeed :=
  { feedC1 with refresh_times := [], last_update := some 0 }

/-- Concrete raw entry with empty id and guid, a non-empty link, and no
enclosures. -/
def entryC2 : ParsedEntry :=
  { id := "", guid := "", link := "http://x/ep", title := "Ep",
    summary := "", description := "", enclosures := [],
    published_parsed := none, updated_parsed := none, image := none,
    itunes_image := none, media_thumbnail := [] }

/-- Concrete feed used by witnesses: never updated, hence always due in
both refresh variants. -/
def feedFresh : PodcastFeed :=
  { feed_id := "w", name := "W", url := "u", max_episodes := 5 }

/-- Concrete empty parsed document. -/
def docEmpty : ParsedDoc :=
  { title := "T", image := none, itunes_image := none, entries := [] }

/-- Concrete feed that is not due at minute 10: last update at minute 0
with a 60-minute per-feed interval and no refresh times. -/
def feedIdle : PodcastFeed :=
  { feed_id := "i", name := "I", url := "u", max_episodes := 5,
    update_interval := some 60, last_update := some 0 }

/-- Concrete feed holding one episode with guid a. -/
def feedGuidsA : PodcastFeed :=
  { feed_id := "g", name := "G", url := "u", max_episodes := 5,
    episodes := [⟨"a", "A", none, "http://a", none, ""⟩] }

/-- Concrete feed holding two episodes with guids a and b. -/
def feedGuidsAB : PodcastFeed :=
  { feedGuidsA with
    episodes := [⟨"a", "A", none, "http://a", none, ""⟩,
                 ⟨"b", "B", none, "http://b", none, ""⟩] }

lemma lookupKnown_insertKnown_self (m : KnownMap) (k : String)
    (v : Finset String) :
    lookupKnown (insertKnown m k v) k = some v := by
  induction m with
  | nil => simp [insertKnown, lookupKnown]
  | cons hd tl ih =>
    obtain ⟨k1, v1⟩ := hd
    by_cases h : k1 = k
    · simp [insertKnown, h, lookupKnown]
    · simp [insertKnown, h, lookupKnown, ih]

lemma filterGuidMapToFinset (eps : List Episode) (s : Finset String) :
    ((eps.filter (fun ep => ep.guid ∈ s)).map Episode.guid).toFinset
      = (eps.map Episode.guid).toFinset ∩ s := by
  induction eps with
  | nil => simp
  | cons e rest ih =>
    by_cases h : e.guid ∈ s
    · simp [h, ih, Finset.insert_inter_of_mem]
    · simp [h, ih, Finset.insert_inter_of_not_mem]

/-- C8: the first invocation of new-episode detection for a feed records
the feed's current guid set and reports no new episodes; every subsequent
invocation reports exactly the guids present in the current episode list
but absent from the previously recorded set, and then records the current
set as known. -/
theorem new_episode_detection (known : KnownMap) (feed : PodcastFeed) :
    (lookupKnown known feed.feed_id = none →
      (fireNewEpisodeEvents known feed).2 = [] ∧
      lookupKnown (fireNewEpisodeEvents known feed).1 feed.feed_id
        = some (currentGuids feed)) ∧
    (∀ prev, lookupKnown known feed.feed_id = some prev →
      ((fireNewEpisodeEvents known feed).2.map
          (fun ev => ev.episode.guid)).toFinset
        = currentGuids feed \ prev ∧
      lookupKnown (fireNewEpisodeEvents known feed).1 feed.feed_id
        = some (currentGuids feed)) := by
  constructor
  · intro h
    simp [fireNewEpisodeEvents, h, lookupKnown_insertKnown_self]
  · intro prev h
    by_cases hne : currentGuids feed \ prev = ∅
    · simp [fireNewEpisodeEvents, h, hne, lookupKnown_insertKnown_self]
    · refine ⟨?_, by simp [fireNewEpisodeEvents, h, hne,
        lookupKnown_insertKnown_self]⟩
      simp only [fireNewEpisodeEvents, h, hne, if_neg, ite_false]
      rw [List.map_map]
      have : ((fun ev : NewEpisodeEvent => ev.episode.guid) ∘
          (fun ep : Episode =>
            (⟨feed.feed_id, pyOr (feed.title.getD "") feed.name, ep⟩ :
              NewEpisodeEvent)))
          = Episode.guid := rfl
      rw [this, filterGuidMapToFinset]
      exact Finset.inter_eq_right.mpr Finset.sdiff_subset

/-- Witness for C8: with an empty known map the detector fires nothing for
a feed holding guid a, and with a recorded set of only a it reports
exactly the fresh guid set of a feed now holding a and b. -/
theorem new_episode_detection_witness :
    (fireNewEpisodeEvents [] feedGuidsA).2 = [] ∧
    ((fireNewEpisodeEvents [("g", {"a"})] feedGuidsAB).2.map
        (fun ev => ev.episode.guid)).toFinset
      = currentGuids feedGuidsAB \ {"a"} :=
  ⟨((new_episode_detection [] feedGuidsA).1 rfl).1,
   ((new_episode_detection [("g", {"a"})] feedGuidsAB).2 {"a"} rfl).1⟩

/-- C10: when a due refresh of a feed fails at fetch or parse, the
coordinator records the error and the attempt time but leaves the
known-guid map unchanged and fires no new-episode event. -/
theorem failed_refresh_fires_nothing (off : Int) (known : KnownMap)
    (feed : PodcastFeed) (now_utc : Int) (e : String)
    (hdue : coordinatorDue off feed now_utc (localOf off now_utc) = true) :
    asyncUpdateFeed off (Except.error e) known feed now_utc
      = ({ feed with last_error := some e, last_update := some now_utc },
          known, []) := by
  simp [asyncUpdateFeed, hdue]

/-- Witness for C10: a never-updated feed is due; a failing fetch leaves
the known map empty-as-before and produces no events. -/
theorem failed_refresh_fires_nothing_witness :
    asyncUpdateFeed 0 (Except.error "boom") [("x", {"a"})] feedFresh 7
      = ({ feedFresh with last_error := some "boom", last_update := some 7 },
          [("x", {"a"})], []) :=
  failed_refresh_fires_nothing 0 [("x", {"a"})] feedFresh 7 "boom" rfl

/-- C3: in both refresh variants, a due refresh whose fetch or parse
fails with a timeout, I/O or value error stores str(error) in last_error
while episodes, title and image_url keep their previous values, and
last_update is set to now; on success last_error becomes none and
last_update is also set to now. -/
theorem refresh_error_capture (d : Nat) (off : Int) (feed : PodcastFeed)
    (now_utc : Int) (force : Bool) (e : String) (doc : ParsedDoc)
    (known : KnownMap) :
    (fetchFeedDue d off feed now_utc force = true →
      fetchFeed d off (Except.error e) feed now_utc force
        = { feed with last_error := some e, last_update := some now_utc } ∧
      (fetchFeed d off (Except.ok doc) feed now_utc force).last_error
        = none ∧
      (fetchFeed d off (Except.ok doc) feed now_utc force).last_update
        = some now_utc) ∧
    (coordinatorDue off feed now_utc (localOf off now_utc) = true →
      (asyncUpdateFeed off (Except.error e) known feed now_utc).1
        = { feed with last_error := some e, last_update := some now_utc } ∧
      (asyncUpdateFeed off (Except.ok doc) known feed now_utc).1.last_error
        = none ∧
      (asyncUpdateFeed off (Except.ok doc) known feed now_utc).1.last_update
        = some now_utc) := by
  constructor
  · intro h
    refine ⟨?_, ?_, ?_⟩ <;> simp [fetchFeed, h]
  · intro h
    refine ⟨?_, ?_, ?_⟩ <;> simp [asyncUpdateFeed, h]

/-- Witness for C3: a never-updated feed is due in both variants; a
failing fetch stamps the error and the time, a succeeding one clears the
error and stamps the time. -/
theorem refresh_error_capture_witness :
    fetchFeed 15 0 (Except.error "boom") feedFresh 7 false
      = { feedFresh with
          last_error := some "boom",
          last_update := some 7 } ∧
    (fetchFeed 15 0 (Except.ok docEmpty) feedFresh 7 false).last_error
      = none ∧
    (asyncUpdateFeed 0 (Except.error "boom") [] feedFresh 7).1
      = { feedFresh with
          last_error := some "boom",
          last_update := some 7 } := by
  have h := refresh_error_capture 15 0 feedFresh 7 false "boom" docEmpty []
  exact ⟨(h.1 rfl).1, (h.1 rfl).2.1, (h.2 rfl).1⟩

/-- C9: a feed that is not due is returned unchanged by both refresh
variants, with no field mutated and no fetch performed, whatever the
fetch-and-parse step would have produced. -/
theorem not_due_frame (d : Nat) (off : Int) (feed : PodcastFeed)
    (now_utc : Int) (oracle : Except String ParsedDoc) (known : KnownMap) :
    (fetchFeedDue d off feed now_utc false = false →
      fetchFeed d off oracle feed now_utc false = feed) ∧
    (coordinatorDue off feed now_utc (localOf off now_utc) = false →
      asyncUpdateFeed off oracle known feed now_utc = (feed, known, [])) := by
  constructor
  · intro h; simp [fetchFeed, h]
  · intro h; simp [asyncUpdateFeed, h]

/-- Witness for C9: a feed last updated at minute 0 with a 60-minute
interval is not due at minute 10 in either variant and is returned
unchanged. -/
theorem not_due_frame_witness :
    fetchFeed 15 0 (Except.error "boom") feedIdle 10 false = feedIdle ∧
    asyncUpdateFeed 0 (Except.error "boom") [] feedIdle 10
      = (feedIdle, [], []) :=
  ⟨(not_due_frame 15 0 feedIdle 10 (Except.error "boom") []).1 (by decide),
   (not_due_frame 15 0 feedIdle 10 (Except.error "boom") []).2 (by decide)⟩

/-- Counterexample to C1: feedC1 has refresh_times [09:00], a 60-minute
update_interval and a last update at local 10:00; at local 11:30 the
schedule helper is not yet due, but PodcastHub.fetch_feed still finds the
feed due through the elapsed-interval branch. -/
theorem scheduled_precedence_cex :
    feedC1.refresh_times ≠ [] ∧ feedC1.last_update = some 600 ∧
    isScheduledRefreshDue 0 feedC1 (localOf 0 690) = false ∧
    fetchFeedDue 15 0 feedC1 690 false = true :=
  ⟨by decide, rfl, by decide, by decide⟩

/-- C1 as amended: for a feed with non-empty refresh_times, a set
last_update and force false, the coordinator refresh is due exactly when
the schedule helper says so, but PodcastHub.fetch_feed is due when the
schedule helper says so or when more than the effective interval
(update_interval when set and non-zero, else the global default) has
elapsed: the interval criterion is still consulted there. -/
theorem scheduled_due_characterization (d : Nat) (off : Int)
    (feed : PodcastFeed) (now_utc lu : Int)
    (hrt : feed.refresh_times ≠ []) (hlu : feed.last_update = some lu) :
    (fetchFeedDue d off feed now_utc false
      = (isScheduledRefreshDue off feed (localOf off now_utc)
          || decide ((pyOrInterval feed.update_interval d : Int)
              < now_utc - lu))) ∧
    (coordinatorDue off feed now_utc (localOf off now_utc)
      = isScheduledRefreshDue off feed (localOf off now_utc)) := by
  have hempty : feed.refresh_times.isEmpty = false := by
    cases h : feed.refresh_times with
    | nil => exact absurd h hrt
    | cons a l => simp [List.isEmpty]
  constructor
  · simp [fetchFeedDue, hlu, hempty]
  · simp [coordinatorDue, hempty]

/-- Witness for the amended C1: at the counterexample instant the
fetch_feed due-check equals the schedule-or-interval disjunction, and the
coordinator due-check equals the schedule check alone. -/
theorem scheduled_due_characterization_witness :
    (fetchFeedDue 15 0 feedC1 690 false
      = (isScheduledRefreshDue 0 feedC1 (localOf 0 690)
          || decide ((pyOrInterval feedC1.update_interval 15 : Int)
              < 690 - 600))) ∧
    (coordinatorDue 0 feedC1 690 (localOf 0 690)
      = isScheduledRefreshDue 0 feedC1 (localOf 0 690)) :=
  scheduled_due_characterization 15 0 feedC1 690 600 (by decide) rfl

/-- Counterexample to C4: feedC4 has no refresh_times, update_interval 60
and last_update at minute 0; at exactly minute 60 the claim says the feed
is due, but PodcastHub.fetch_feed uses a strict comparison and does not
fetch. -/
theorem interval_due_cex :
    feedC4.refresh_times = [] ∧ feedC4.update_interval = some 60 ∧
    feedC4.last_update = some 0 ∧
    fetchFeedDue 15 0 feedC4 60 false = false :=
  ⟨rfl, rfl, rfl, by decide⟩

/-- C4 as amended: for a feed with empty refresh_times, a set last_update
and force false, PodcastHub.fetch_feed fetches exactly when now minus
last_update strictly exceeds the effective interval (update_interval when
set and non-zero, else the global default), so the feed is not yet due at
exactly last_update plus the interval; the coordinator variant instead
compares
now minus last_update against the per-feed update_interval with a
non-strict bound and fetches unconditionally when update_interval is
unset or zero, never consulting the global default. -/
theorem interval_due_characterization (d : Nat) (off : Int)
    (feed : PodcastFeed) (now_utc lu : Int)
    (hrt : feed.refresh_times = []) (hlu : feed.last_update = some lu) :
    (fetchFeedDue d off feed now_utc false
      = decide ((pyOrInterval feed.update_interval d : Int)
          < now_utc - lu)) ∧
    (∀ ui, feed.update_interval = some ui → ui ≠ 0 →
      coordinatorDue off feed now_utc (localOf off now_utc)
        = decide ((ui : Int) ≤ now_utc - lu)) ∧
    (feed.update_interval = none →
      coordinatorDue off feed now_utc (localOf off now_utc) = true) := by
  refine ⟨?_, ?_, ?_⟩
  · simp [fetchFeedDue, hlu, hrt]
  · intro ui hui hne
    simp [coordinatorDue, hrt, hui, hlu, hne]
  · intro hui
    simp [coordinatorDue, hrt, hui, hlu]

/-- Witness for the amended C4: at minute 60 the fetch_feed due-check is
the strict comparison (false here), and the coordinator due-check is the
non-strict one (true here). -/
theorem interval_due_characterization_witness :
    (fetchFeedDue 15 0 feedC4 60 false
      = decide ((pyOrInterval feedC4.update_interval 15 : Int) < 60 - 0)) ∧
    (coordinatorDue 0 feedC4 60 (localOf 0 60)
      = decide ((60 : Int) ≤ 60 - 0)) :=
  ⟨(interval_due_characterization 15 0 feedC4 60 0 rfl rfl).1,
   (interval_due_characterization 15 0 feedC4 60 0 rfl rfl).2.1 60 rfl
     (by decide)⟩

/-- Counterexample to C2: entryC2 has empty id and guid, a non-empty
link and no enclosure, yet the normalizer produces an Episode instead of
dropping the entry, because the link doubles as the audio-URL fallback. -/
theorem entry_drop_cex :
    entryC2.id = "" ∧ entryC2.guid = "" ∧ entryC2.link ≠ "" ∧
    entryC2.enclosures = [] ∧ (entry_to_episode entryC2).isSome = true :=
  ⟨rfl, rfl, by decide, rfl, rfl⟩

/-- C2 as amended: a raw entry with empty id and guid, a non-empty link
and no enclosure with a non-empty href yields exactly one Episode, whose
guid and url both equal the link; such an entry is dropped only when the
link is empty as well. -/
theorem entry_link_fallback (e : ParsedEntry)
    (hid : e.id = "") (hguid : e.guid = "") (hlink : e.link ≠ "")
    (henc : ∀ h ∈ e.enclosures, h = "") :
    ∃ ep, entry_to_episode e = some ep ∧ ep.guid = e.link ∧
      ep.url = e.link := by
  have hau : entry_audio_url e = none := by
    unfold entry_audio_url
    rw [List.find?_eq_none]
    intro x hx
    simpa using henc x hx
  refine ⟨{ guid := e.link, title := pyOr e.title "Untitled",
            published := entry_published e, url := e.link,
            image_url := entry_image_url e,
            summary := pyOr e.summary e.description }, ?_, rfl, rfl⟩
  unfold entry_to_episode
  rw [hau]
  simp [pyOr, hid, hguid, hlink]

/-- Witness for the amended C2: the concrete entry yields the Episode
with its link as guid and url. -/
theorem entry_link_fallback_witness :
    ∃ ep, entry_to_episode entryC2 = some ep ∧ ep.guid = entryC2.link ∧
      ep.url = entryC2.link :=
  entry_link_fallback entryC2 rfl rfl (by decide) (by simp [entryC2])

lemma hubGetFeed_hubAddFeed (m : HubMap) (f : PodcastFeed) (k : String) :
    hubGetFeed (hubAddFeed m f) k
      = if k = f.feed_id then some f else hubGetFeed m k := by
  induction m with
  | nil =>
    by_cases h : k = f.feed_id
    · simp [hubAddFeed, hubGetFeed, h]
    · have h1 : ¬ f.feed_id = k := fun hh => h hh.symm
      simp [hubAddFeed, hubGetFeed, h, h1]
  | cons hd tl ih =>
    obtain ⟨k1, f1⟩ := hd
    simp only [hubAddFeed]
    by_cases h1 : k1 = f.feed_id
    · rw [if_pos h1]
      by_cases h2 : k = f.feed_id
      · subst h2
        simp [hubGetFeed]
      · have h3 : ¬ f.feed_id = k := fun hh => h2 hh.symm
        have h4 : ¬ k1 = k := fun hh => h3 (h1 ▸ hh)
        simp [hubGetFeed, h2, h3, h4]
    · rw [if_neg h1]
      by_cases h2 : k1 = k
      · have h3 : ¬ k = f.feed_id := fun hh => h1 (h2.trans hh)
        simp [hubGetFeed, h2, h3]
      · simp [hubGetFeed, h2, ih]

lemma hubGetFeed_applySubs (subs : List Subentry) :
    ∀ (hub : HubMap) (k : String),
      (hubGetFeed (applySubs hub subs) k).isSome
        ↔ ((hubGetFeed hub k).isSome ∨ k ∈ desiredIds subs) := by
  induction subs with
  | nil => intro hub k; simp [applySubs, desiredIds]
  | cons s rest ih =>
    intro hub k
    by_cases hv : validSub s
    · rw [show applySubs hub (s :: rest)
            = applySubs (hubAddFeed hub (feedOfSub s)) rest by
          simp [applySubs, hv]]
      rw [ih]
      rw [hubGetFeed_hubAddFeed]
      have hfid : (feedOfSub s).feed_id = s.id := rfl
      by_cases hk : k = s.id
      · simp [hfid, hk, desiredIds, hv]
      · simp [hfid, hk, desiredIds, hv]
    · rw [show applySubs hub (s :: rest) = applySubs hub rest by
          simp [applySubs, hv]]
      simp [ih, desiredIds, hv]

lemma hubGetFeed_filterProtected (m : HubMap) (prot : List String)
    (k : String) :
    hubGetFeed (m.filter (fun p => p.1 ∈ prot)) k
      = if k ∈ prot then hubGetFeed m k else none := by
  induction m with
  | nil => simp [hubGetFeed]
  | cons hd tl ih =>
    obtain ⟨k1, f1⟩ := hd
    by_cases h1 : k1 ∈ prot
    · by_cases h2 : k1 = k
      · subst h2
        simp [hubGetFeed, h1]
      · simp [hubGetFeed, h1, h2, ih]
    · by_cases h2 : k1 = k
      · subst h2
        simp [hubGetFeed, h1, ih]
      · simp [hubGetFeed, h1, h2, ih]

/-- C5: after the interactive source's reconciliation, a feed id is
present in the hub exactly when it is protected (a YAML-declared id or a
valid desired id of the source) and it was previously present or was
just upserted from a valid declaration; in particular every YAML-declared
feed survives and every id outside both sets is removed. -/
theorem reconcile_membership (hub0 : HubMap) (yamlIds : List String)
    (subs : List Subentry) (fid : String) :
    (hubGetFeed (reconcileSubentries hub0 yamlIds subs) fid).isSome
      ↔ ((fid ∈ yamlIds ∨ fid ∈ desiredIds subs) ∧
          ((hubGetFeed hub0 fid).isSome ∨ fid ∈ desiredIds subs)) := by
  unfold reconcileSubentries
  rw [hubGetFeed_filterProtected]
  by_cases h : fid ∈ yamlIds ++ desiredIds subs
  · have h1 : fid ∈ yamlIds ∨ fid ∈ desiredIds subs := by
      simpa using h
    simp [h, h1, hubGetFeed_applySubs]
  · have h1 : ¬ (fid ∈ yamlIds ∨ fid ∈ desiredIds subs) := by
      simpa using h
    simp [h, h1]

/-- Counterexample to C6: with the two valid entries given in the other
order, normalize_refresh_times returns them zero-padded but in input
order, not sorted ascending. -/
theorem normalize_sorted_cex :
    normalize_refresh_times [Sum.inr "18:00", Sum.inr "9:5"]
      = some ["18:00", "09:05"] ∧
    ["18:00", "09:05"] ≠ ["09:05", "18:00"] :=
  ⟨by decide, by decide⟩

/-- C6 as amended: normalize_refresh_times serializes every valid entry
to a zero-padded 24-hour HH:MM string preserving input order, with no
sorting; normalize(["9:5", "18:00"]) = ["09:05", "18:00"] holds because
that input is already ascending, and the ascending sort belongs to
parse_refresh_times instead. -/
theorem normalize_zero_pads_in_order (v : List PyTime) :
    normalize_refresh_times (v.map Sum.inl)
      = some (v.map PyTime.strftimeHM) ∧
    normalize_refresh_times [Sum.inr "9:5", Sum.inr "18:00"]
      = some ["09:05", "18:00"] ∧
    parse_refresh_times [Sum.inr "18:00", Sum.inr "9:5"]
      = [⟨9, 5, 0⟩, ⟨18, 0, 0⟩] := by
  refine ⟨?_, by decide, by decide⟩
  induction v with
  | nil => rfl
  | cons t rest ih => simp [normalize_refresh_times, ih]

lemma find?_cons_false {α : Type} (p : α → Bool) (a : α) (l : List α)
    (h : p a = false) : List.find? p (a :: l) = List.find? p l := by
  simp [List.find?_cons, h]

lemma filter_cons_false {α : Type} (p : α → Bool) (a : α) (l : List α)
    (h : p a = false) : List.filter p (a :: l) = List.filter p l := by
  simp [List.filter_cons, h]

lemma find?_min_of_sorted (times : List Nat) (b t : Nat)
    (hsorted : List.Sorted (· ≤ ·) times)
    (hf : times.find? (fun x => b < x) = some t) :
    ∀ u ∈ times, b < u → t ≤ u := by
  induction times with
  | nil => simp at hf
  | cons a l ih =>
    by_cases h : b < a
    · rw [List.find?_cons_of_pos _ (by simpa using h)] at hf
      have hta : t = a := by simpa using hf.symm
      intro u hu hbu
      rcases List.mem_cons.mp hu with rfl | hu1
      · exact hta.le
      · exact hta ▸ (List.sorted_cons.mp hsorted).1 u hu1
    · rw [find?_cons_false _ _ _ (by simpa using h)] at hf
      intro u hu hbu
      rcases List.mem_cons.mp hu with rfl | hu1
      · exact absurd hbu h
      · exact ih (List.sorted_cons.mp hsorted).2 hf u hu1 hbu

/-- C7: for a non-empty ascending list of times, the next scheduled time
after a local instant is the earliest listed time strictly later than the
instant's time-of-day on the instant's own date, and when no listed time
qualifies, the first listed time on the following day. -/
theorem next_scheduled_time_spec (last : LocalDT) (times : List Nat)
    (hne : times ≠ []) (hsorted : List.Sorted (· ≤ ·) times) :
    ((∃ t ∈ times, last.tod < t) →
      ∃ t, t ∈ times ∧ last.tod < t ∧
        (∀ u ∈ times, last.tod < u → t ≤ u) ∧
        nextScheduledTime last times = ⟨last.day, t⟩) ∧
    ((∀ t ∈ times, ¬ last.tod < t) →
      nextScheduledTime last times = ⟨last.day + 1, times.headD 0⟩) := by
  constructor
  · rintro ⟨t0, ht0, hlt0⟩
    cases hf : times.find? (fun t => last.tod < t) with
    | none =>
      rw [List.find?_eq_none] at hf
      exact absurd (by simpa using hf t0 ht0) (by simpa using hlt0)
    | some t =>
      refine ⟨t, List.mem_of_find?_eq_some hf,
        by simpa using List.find?_some hf,
        find?_min_of_sorted times last.tod t hsorted hf, ?_⟩
      simp [nextScheduledTime, hf]
  · intro h
    cases hf : times.find? (fun t => last.tod < t) with
    | none => simp [nextScheduledTime, hf]
    | some t =>
      exact absurd (by simpa using List.find?_some hf)
        (h t (List.mem_of_find?_eq_some hf))

/-- Witness for C7: with the 09:00 daily schedule and a last update at
20:00 on day 0 no listed time qualifies, and the result is 09:00 on
day 1. -/
theorem next_scheduled_time_spec_witness :
    nextScheduledTime ⟨0, 1200⟩ [540] = ⟨1, 540⟩ :=
  (next_scheduled_time_spec ⟨0, 1200⟩ [540] (by decide)
    (by simp)).2 (by decide)
